import Mathlib

/-!
# Verification of the todo-list core (gkate78/v101-todolist)

Shallow embedding of the business-logic core:

* `calculate_priority_from_due_date` — the Priority Engine,
  `app/controllers/todo_controller.py`.  The Python code reads
  `date.today()` implicitly; here the reference date is an explicit
  `today` parameter threaded through every operation, and calendar
  dates are integer day numbers, so `(d - today).days` becomes `d - today`.
* `create_todo`, `get_all_todos`, `get_todo_by_id`, `update_todo`,
  `delete_todo` — the Todo Store, same file.  The SQLite-backed session
  is embedded as an explicit `DB` state (list of rows plus the next
  auto-assigned primary key); a raised `HTTPException` becomes the
  `Except.error` branch.
* `create_todo_endpoint`, `update_todo_endpoint`, `delete_todo_endpoint`
  — the request boundary, `app/routes/todo_routes.py`: the pydantic
  range check on `priority` (`ge=1, le=3`) and the
  `model_dump(exclude_unset=True)` handling of partial updates.  A field
  of a `TodoUpdate` request is `none` when the key is absent from the
  JSON body, `some none` when it is present with value `null`, and
  `some (some v)` when it carries a value.

The `Todo` row has the five persisted fields of the spec.  `id`,
`title`, `completed` are declared in `app/models/todo.py`; that file
does not declare the `priority` and `due_date` columns, although the
controller and routes read and write `todo.priority` / `todo.due_date`
throughout, so those two fields are modelled from the spec
(persisted-state layout: `priority` integer, `due_date` nullable date),
as is the primary-key assignment (`id` integer, auto-assigned, fresh
and unique) performed by the excluded persistence layer.

Note that nothing in the running code enforces the `max_length=200`
declared on `title`: the pydantic request schema `TodoCreate` constrains
`title` only to be a string (any length, including empty), SQLModel
`table=True` models skip validation on instantiation, and SQLite does
not enforce `VARCHAR` lengths.  The embedded endpoint therefore performs
no title check, which is what decides claim C8.
-/

namespace TodoApp

/-- One persisted todo row.  `id`, `title`, `completed` are declared in
`app/models/todo.py`.  Modelled from the spec: the `priority` and
`due_date` columns (persisted-state layout, spec §6), which are missing
from the model file although the controller and routes use them as row
attributes everywhere. -/
structure Todo where
  id : Nat
  title : String
  completed : Bool
  priority : Nat
  due_date : Option Int
deriving Repr, DecidableEq

/-- The error taxonomy of the core (spec §7): `HTTPException(404, ...)`
raised by the controller becomes `notFound`; a pydantic validation
rejection at the request boundary becomes `invalidInput`. -/
inductive ApiError where
  | notFound (todo_id : Nat)
  | invalidInput
deriving Repr, DecidableEq

/-- `calculate_priority_from_due_date` from
`app/controllers/todo_controller.py`:

```
if due_date is None: return 2
days_until_due = (due_date - date.today()).days
if days_until_due <= 1: return 3
if days_until_due <= 7: return 2
return 1
```
with `date.today()` made an explicit `today` parameter. -/
def calculate_priority_from_due_date : Option Int → Int → Nat
  | none, _ => 2
  | some d, today =>
    if d - today ≤ 1 then 3
    else if d - today ≤ 7 then 2
    else 1

/-- The persisted store: the rows of the todo table plus the next
primary key SQLite will assign.  Modelled from the spec: `id` is
"assigned by the store on creation", fresh and unique. -/
structure DB where
  todos : List Todo
  nextId : Nat
deriving Repr, DecidableEq

/-- A freshly initialised database (SQLite assigns 1 to the first row). -/
def emptyDB : DB := ⟨[], 1⟩

/-- `create_todo` from the controller: derive the priority when none is
given, build the row with `completed=False`, insert it, and return the
persisted row (with its auto-assigned id, obtained by `db.refresh`). -/
def create_todo (db : DB) (today : Int) (title : String)
    (priority : Option Nat) (due_date : Option Int) : Todo × DB :=
  let p : Nat :=
    match priority with
    | none => calculate_priority_from_due_date due_date today
    | some p => p
  let new_todo : Todo :=
    { id := db.nextId, title := title, completed := false
      priority := p, due_date := due_date }
  (new_todo, { todos := db.todos ++ [new_todo], nextId := db.nextId + 1 })

/-- `get_todo_by_id` from the controller:
`SELECT * FROM todo WHERE id = todo_id`, first row or `None`. -/
def get_todo_by_id (db : DB) (todo_id : Nat) : Option Todo :=
  db.todos.find? (fun t => t.id == todo_id)

/-- The WHERE clauses of `get_all_todos`: each filter is applied only
when given, and the two are AND-combined. -/
def matchesFilters (t : Todo) (completed : Option Bool) (priority : Option Nat) : Bool :=
  (match completed with | none => true | some c => t.completed == c) &&
  (match priority with | none => true | some p => t.priority == p)

/-- The ORDER BY relation of `get_all_todos`:
`Todo.priority.desc(), Todo.id.desc()` — `a` sorts no later than `b`. -/
def todoGE (a b : Todo) : Prop :=
  b.priority < a.priority ∨ (a.priority = b.priority ∧ b.id ≤ a.id)

/-- Strict version of [todoGE]: with distinct ids the ORDER BY key is a
strict total order, which is what makes the listing deterministic. -/
def todoGT (a b : Todo) : Prop :=
  b.priority < a.priority ∨ (a.priority = b.priority ∧ b.id < a.id)

instance : DecidableRel todoGE := fun a b =>
  decidable_of_iff (b.priority < a.priority ∨ (a.priority = b.priority ∧ b.id ≤ a.id)) Iff.rfl

instance : IsTotal Todo todoGE :=
  ⟨fun a b => by
    unfold todoGE
    rcases Nat.lt_trichotomy a.priority b.priority with h | h | h
    · exact Or.inr (Or.inl h)
    · rcases Nat.le_total b.id a.id with h' | h'
      · exact Or.inl (Or.inr ⟨h, h'⟩)
      · exact Or.inr (Or.inr ⟨h.symm, h'⟩)
    · exact Or.inl (Or.inl h)⟩

instance : IsTrans Todo todoGE :=
  ⟨fun a b c hab hbc => by
    unfold todoGE at *
    rcases hab with hab | ⟨hab, hab'⟩ <;> rcases hbc with hbc | ⟨hbc, hbc'⟩
    · exact Or.inl (Nat.lt_trans hbc hab)
    · exact Or.inl (hbc ▸ hab)
    · exact Or.inl (hab ▸ hbc)
    · exact Or.inr ⟨hab.trans hbc, Nat.le_trans hbc' hab'⟩⟩

/-- `get_all_todos` from the controller: optional `completed` and
`priority` WHERE clauses, then
`ORDER BY priority DESC, id DESC`. -/
def get_all_todos (db : DB) (completed : Option Bool) (priority : Option Nat) : List Todo :=
  (db.todos.filter (fun t => matchesFilters t completed priority)).insertionSort todoGE

/-- `update_todo` from the controller, line for line:

```
todo = await get_todo_by_id(db, todo_id)
if not todo: raise HTTPException(404, ...)
if title is not None: todo.title = title
if completed is not None: todo.completed = completed
if priority_provided and priority is not None: todo.priority = priority
if due_date_provided:
    todo.due_date = due_date
    if not priority_provided:
        todo.priority = calculate_priority_from_due_date(todo.due_date)
db.add(todo); await db.commit(); await db.refresh(todo)
```
Committing the mutated session object is the row replacement keyed by
the primary key. -/
def update_todo (db : DB) (todo_id : Nat) (title : Option String)
    (completed : Option Bool) (priority : Option Nat) (due_date : Option Int)
    (priority_provided : Bool) (due_date_provided : Bool) (today : Int) :
    Except ApiError (Todo × DB) :=
  match get_todo_by_id db todo_id with
  | none => .error (.notFound todo_id)
  | some todo =>
    let todo1 := match title with | some t => { todo with title := t } | none => todo
    let todo2 := match completed with | some c => { todo1 with completed := c } | none => todo1
    let todo3 :=
      if priority_provided then
        match priority with
        | some p => { todo2 with priority := p }
        | none => todo2
      else todo2
    let todo4 :=
      if due_date_provided then
        let tmp := { todo3 with due_date := due_date }
        if priority_provided then tmp
        else { tmp with priority := calculate_priority_from_due_date tmp.due_date today }
      else todo3
    .ok (todo4,
      { db with todos := db.todos.map (fun u => if u.id == todo_id then todo4 else u) })

/-- `delete_todo` from the controller: 404 when absent, otherwise
delete the row and return `True`. -/
def delete_todo (db : DB) (todo_id : Nat) : Except ApiError (Bool × DB) :=
  match get_todo_by_id db todo_id with
  | none => .error (.notFound todo_id)
  | some _ => .ok (true, { db with todos := db.todos.filter (fun t => !(t.id == todo_id)) })

/-- The `TodoCreate` pydantic schema of `app/routes/todo_routes.py`:
`title: str` (no length constraint), `priority: int | None` with
`ge=1, le=3`, `due_date: date | None`. -/
structure TodoCreate where
  title : String
  priority : Option Nat := none
  due_date : Option Int := none
deriving Repr, DecidableEq

/-- The validation pydantic actually performs on a `TodoCreate` body:
only the range check on a present `priority`.  `title` is merely
required to be a string — the empty string and strings beyond 200
characters pass. -/
def todoCreateValid (r : TodoCreate) : Bool :=
  match r.priority with
  | none => true
  | some p => 1 ≤ p && p ≤ 3

/-- `create_todo_endpoint`: validate the body, then call the
controller. -/
def create_todo_endpoint (db : DB) (today : Int) (r : TodoCreate) :
    Except ApiError (Todo × DB) :=
  if todoCreateValid r then
    .ok (create_todo db today r.title r.priority r.due_date)
  else
    .error .invalidInput

/-- The `TodoUpdate` pydantic schema: every field optional and
nullable.  `none` = key absent from the JSON body, `some none` = key
present with `null`, `some (some v)` = key present with a value —
exactly the distinction `model_dump(exclude_unset=True)` preserves. -/
structure TodoUpdate where
  title : Option (Option String) := none
  completed : Option (Option Bool) := none
  priority : Option (Option Nat) := none
  due_date : Option (Option Int) := none
deriving Repr, DecidableEq

/-- The validation pydantic performs on a `TodoUpdate` body: a present
non-null `priority` must be in 1..3 (explicit `null` is allowed). -/
def todoUpdateValid (r : TodoUpdate) : Bool :=
  match r.priority with
  | some (some p) => 1 ≤ p && p ≤ 3
  | _ => true

/-- `update_todo_endpoint`:

```
update_data = todo_data.model_dump(exclude_unset=True)
todo = await update_todo(db, todo_id,
    title=update_data.get("title"), completed=update_data.get("completed"),
    priority=update_data.get("priority"), due_date=update_data.get("due_date"),
    priority_provided="priority" in update_data,
    due_date_provided="due_date" in update_data)
```
`update_data.get(k)` collapses absent and explicitly-null to `None`
(`Option.join`); the two presence flags are `isSome` of the raw field. -/
def update_todo_endpoint (db : DB) (todo_id : Nat) (r : TodoUpdate) (today : Int) :
    Except ApiError (Todo × DB) :=
  if todoUpdateValid r then
    update_todo db todo_id r.title.join r.completed.join r.priority.join r.due_date.join
      r.priority.isSome r.due_date.isSome today
  else
    .error .invalidInput

/-- `delete_todo_endpoint`: straight pass-through to the controller. -/
def delete_todo_endpoint (db : DB) (todo_id : Nat) : Except ApiError (Bool × DB) :=
  delete_todo db todo_id

/-- One state-changing request reaching the store through the API
boundary (`list` and `get` are read-only). -/
inductive Op where
  | createOp (today : Int) (r : TodoCreate)
  | updateOp (todo_id : Nat) (today : Int) (r : TodoUpdate)
  | deleteOp (todo_id : Nat)

/-- The store state after serving one request: an error response leaves
the store untouched (the controller raises before mutating). -/
def exec (db : DB) : Op → DB
  | .createOp today r =>
    match create_todo_endpoint db today r with
    | .ok (_, db') => db'
    | .error _ => db
  | .updateOp todo_id today r =>
    match update_todo_endpoint db todo_id r today with
    | .ok (_, db') => db'
    | .error _ => db
  | .deleteOp todo_id =>
    match delete_todo_endpoint db todo_id with
    | .ok (_, db') => db'
    | .error _ => db

/-- Well-formedness delivered by the persistence layer: every assigned
primary key is below the next one to be assigned. -/
def WF (db : DB) : Prop := ∀ t ∈ db.todos, t.id < db.nextId

instance (db : DB) : Decidable (WF db) :=
  decidable_of_iff (∀ t ∈ db.todos, t.id < db.nextId) Iff.rfl

/-- The spec §3 invariant: every stored priority is in {1,2,3}. -/
def PriorityInv (db : DB) : Prop := ∀ t ∈ db.todos, 1 ≤ t.priority ∧ t.priority ≤ 3

/-- The row `update_todo` writes back, field by field, when the looked-up
row is `todo0` (used to state the update claims). -/
def updatedTodo (todo0 : Todo) (title : Option String) (completed : Option Bool)
    (priority : Option Nat) (due_date : Option Int)
    (priority_provided : Bool) (due_date_provided : Bool) (today : Int) : Todo :=
  { id := todo0.id
    title := title.getD todo0.title
    completed := completed.getD todo0.completed
    priority :=
      if priority_provided then
        match priority with
        | some p => p
        | none => todo0.priority
      else if due_date_provided then calculate_priority_from_due_date due_date today
      else todo0.priority
    due_date := if due_date_provided then due_date else todo0.due_date }

/-! ## Helper lemmas -/

theorem calculate_priority_range (due_date : Option Int) (today : Int) :
    1 ≤ calculate_priority_from_due_date due_date today ∧
      calculate_priority_from_due_date due_date today ≤ 3 := by
  rcases due_date with _ | d <;> simp only [calculate_priority_from_due_date]
  · omega
  · split_ifs <;> omega

theorem get_todo_by_id_eq_none {db : DB} {todo_id : Nat} :
    get_todo_by_id db todo_id = none ↔ ∀ t ∈ db.todos, t.id ≠ todo_id := by
  simp [get_todo_by_id, List.find?_eq_none]

theorem get_todo_by_id_mem {db : DB} {todo_id : Nat} {t : Todo}
    (h : get_todo_by_id db todo_id = some t) : t ∈ db.todos ∧ t.id = todo_id := by
  unfold get_todo_by_id at h
  exact ⟨List.mem_of_find?_eq_some h, by simpa using List.find?_some h⟩

theorem update_todo_spec {db : DB} {todo_id : Nat} {todo0 : Todo}
    (title : Option String) (completed : Option Bool) (priority : Option Nat)
    (due_date : Option Int) (priority_provided due_date_provided : Bool) (today : Int)
    (h : get_todo_by_id db todo_id = some todo0) :
    update_todo db todo_id title completed priority due_date
        priority_provided due_date_provided today =
      .ok (updatedTodo todo0 title completed priority due_date
             priority_provided due_date_provided today,
           { db with
               todos := db.todos.map (fun u =>
                 if u.id == todo_id then
                   updatedTodo todo0 title completed priority due_date
                     priority_provided due_date_provided today
                 else u) }) := by
  simp only [update_todo, h]
  rcases title with _ | t <;> rcases completed with _ | c <;>
    cases priority_provided <;> rcases priority with _ | p <;>
    cases due_date_provided <;>
    simp [updatedTodo]

/-! ## Claims -/

/-- C1: the Priority Engine is total with values in {1,2,3}: for an
absent due date it returns 2; for `(d - today).days ≤ 1` (overdue
included) it returns 3; for `2 ≤ days ≤ 7` it returns 2; for
`days > 7` it returns 1. -/
theorem claim_C1 (d : Option Int) (today : Int) :
    (d = none → calculate_priority_from_due_date d today = 2) ∧
    (∀ dd : Int, d = some dd →
      (dd - today ≤ 1 → calculate_priority_from_due_date d today = 3) ∧
      (2 ≤ dd - today → dd - today ≤ 7 → calculate_priority_from_due_date d today = 2) ∧
      (7 < dd - today → calculate_priority_from_due_date d today = 1)) ∧
    (calculate_priority_from_due_date d today = 1 ∨
     calculate_priority_from_due_date d today = 2 ∨
     calculate_priority_from_due_date d today = 3) := by
  refine ⟨fun h => by simp [h, calculate_priority_from_due_date], fun dd h => ?_, ?_⟩
  · subst h
    refine ⟨?_, ?_, ?_⟩
    · intro h1
      simp only [calculate_priority_from_due_date]
      split_ifs
      all_goals omega
    · intro h2 h7
      simp only [calculate_priority_from_due_date]
      split_ifs <;> omega
    · intro h7
      simp only [calculate_priority_from_due_date]
      split_ifs <;> omega
  · rcases d with _ | dd <;> simp only [calculate_priority_from_due_date]
    · simp
    · split_ifs <;> simp

theorem claim_C1_witness :
    calculate_priority_from_due_date none 0 = 2 ∧
    calculate_priority_from_due_date (some (-5)) 0 = 3 ∧
    calculate_priority_from_due_date (some 5) 0 = 2 ∧
    calculate_priority_from_due_date (some 9) 0 = 1 :=
  ⟨(claim_C1 none 0).1 rfl,
   ((claim_C1 (some (-5)) 0).2.1 (-5) rfl).1 (by decide),
   ((claim_C1 (some 5) 0).2.1 5 rfl).2.1 (by decide) (by decide),
   ((claim_C1 (some 9) 0).2.1 9 rfl).2.2 (by decide)⟩

theorem find?_append_singleton {α : Type} {p : α → Bool} {l : List α} {a : α}
    (h : ∀ x ∈ l, p x = false) (ha : p a = true) : (l ++ [a]).find? p = some a := by
  induction l with
  | nil => simp [List.find?, ha]
  | cons b l ih =>
    have hb := h b (by simp)
    simpa [List.find?, hb] using ih (fun x hx => h x (by simp [hx]))

/-- C2: `create` followed by `get` on the returned id yields a record
equal to the created one in all five fields. -/
theorem claim_C2 (db : DB) (today : Int) (r : TodoCreate)
    (hwf : WF db) (hv : todoCreateValid r = true) :
    ∃ t db', create_todo_endpoint db today r = .ok (t, db') ∧
      ∃ u, get_todo_by_id db' t.id = some u ∧
        u.id = t.id ∧ u.title = t.title ∧ u.completed = t.completed ∧
        u.priority = t.priority ∧ u.due_date = t.due_date := by
  refine ⟨(create_todo db today r.title r.priority r.due_date).1,
          (create_todo db today r.title r.priority r.due_date).2,
          by simp [create_todo_endpoint, hv], ?_⟩
  refine ⟨(create_todo db today r.title r.priority r.due_date).1,
          ?_, rfl, rfl, rfl, rfl, rfl⟩
  unfold get_todo_by_id create_todo
  refine find?_append_singleton (fun x hx => ?_) (by simp)
  have := hwf x hx
  simp only [beq_eq_false_iff_ne]
  omega

theorem claim_C2_witness :
    WF emptyDB ∧ todoCreateValid ⟨"milk", none, some 0⟩ = true ∧
      (∃ t db', create_todo_endpoint emptyDB 0 ⟨"milk", none, some 0⟩ = .ok (t, db') ∧
        ∃ u, get_todo_by_id db' t.id = some u ∧
          u.id = t.id ∧ u.title = t.title ∧ u.completed = t.completed ∧
          u.priority = t.priority ∧ u.due_date = t.due_date) :=
  ⟨by simp [WF, emptyDB], rfl,
   claim_C2 emptyDB 0 ⟨"milk", none, some 0⟩ (by simp [WF, emptyDB]) rfl⟩

/-- C3: on an update of an existing record, an explicitly supplied
priority value is stored verbatim with no auto-derivation (even when
`due_date` changes in the same call); a due-date change without an
explicit priority recomputes the priority from the new due date; and
when neither is explicitly set the priority is unchanged. -/
theorem claim_C3 (db : DB) (todo_id : Nat) (todo0 : Todo) (title : Option String)
    (completed : Option Bool) (priority : Option Nat) (due_date : Option Int)
    (pp dp : Bool) (today : Int)
    (h : get_todo_by_id db todo_id = some todo0) :
    ∃ t' db',
      update_todo db todo_id title completed priority due_date pp dp today = .ok (t', db') ∧
      (∀ p, pp = true → priority = some p →
        t'.priority = p ∧ (dp = true → t'.due_date = due_date)) ∧
      (pp = false → dp = true →
        t'.due_date = due_date ∧
        t'.priority = calculate_priority_from_due_date due_date today) ∧
      (pp = false → dp = false → t'.priority = todo0.priority) := by
  refine ⟨_, _, update_todo_spec title completed priority due_date pp dp today h,
    ?_, ?_, ?_⟩
  · intro p hpp hp
    subst hpp hp
    exact ⟨by simp [updatedTodo], fun hdp => by simp [updatedTodo, hdp]⟩
  · intro hpp hdp
    subst hpp hdp
    exact ⟨by simp [updatedTodo], by simp [updatedTodo]⟩
  · intro hpp hdp
    subst hpp hdp
    simp [updatedTodo]

theorem claim_C3_witness :
    get_todo_by_id ⟨[⟨1, "a", false, 2, none⟩], 2⟩ 1 = some ⟨1, "a", false, 2, none⟩ ∧
      (∃ t' db',
        update_todo ⟨[⟨1, "a", false, 2, none⟩], 2⟩ 1 none none (some 3) (some 10)
            true true 0 = .ok (t', db') ∧
        (∀ p, true = true → (some 3 : Option Nat) = some p →
          t'.priority = p ∧ (true = true → t'.due_date = some 10)) ∧
        (true = false → true = true →
          t'.due_date = some 10 ∧
          t'.priority = calculate_priority_from_due_date (some 10) 0) ∧
        (true = false → true = false → t'.priority = 2)) :=
  ⟨rfl, claim_C3 ⟨[⟨1, "a", false, 2, none⟩], 2⟩ 1 ⟨1, "a", false, 2, none⟩
    none none (some 3) (some 10) true true 0 rfl⟩

/-- C4 fails as stated: on the one-record store below, an update that
explicitly supplies only `due_date` (10 days out) also changes the
omitted `priority` field from 3 to 1, so not every omitted field keeps
its prior value. -/
theorem claim_C4_counterexample :
    update_todo ⟨[⟨1, "t", false, 3, some 0⟩], 2⟩ 1 none none none (some 10) false true 0
      = .ok (⟨1, "t", false, 1, some 10⟩, ⟨[⟨1, "t", false, 1, some 10⟩], 2⟩) ∧
    (3 : Nat) ≠ 1 :=
  ⟨rfl, by decide⟩

/-- C4 (amended): `update` fails with `NotFound` exactly when no record
has the given id (the store is then untouched); on an existing record
only the explicitly supplied fields are changed — except that the
priority is additionally recomputed from the new due date when
`due_date` is supplied without `priority` — every other omitted field
keeps its prior value, the id is immutable, and all other records are
unchanged. -/
theorem claim_C4 (db : DB) (todo_id : Nat) (title : Option String)
    (completed : Option Bool) (priority : Option Nat) (due_date : Option Int)
    (pp dp : Bool) (today : Int) :
    (update_todo db todo_id title completed priority due_date pp dp today
        = .error (.notFound todo_id) ↔ get_todo_by_id db todo_id = none) ∧
    (∀ todo0, get_todo_by_id db todo_id = some todo0 →
      ∃ t' db',
        update_todo db todo_id title completed priority due_date pp dp today
          = .ok (t', db') ∧
        t'.id = todo_id ∧
        t'.title = title.getD todo0.title ∧
        t'.completed = completed.getD todo0.completed ∧
        t'.due_date = (if dp then due_date else todo0.due_date) ∧
        (pp = false → dp = false → t'.priority = todo0.priority) ∧
        db'.nextId = db.nextId ∧
        db'.todos = db.todos.map (fun u => if u.id == todo_id then t' else u)) := by
  constructor
  · rcases h : get_todo_by_id db todo_id with _ | todo0
    · simp [update_todo, h]
    · rw [update_todo_spec title completed priority due_date pp dp today h]
      simp [h]
  · intro todo0 h
    refine ⟨_, _, update_todo_spec title completed priority due_date pp dp today h,
      ?_, rfl, rfl, ?_, ?_, rfl, rfl⟩
    · exact (get_todo_by_id_mem h).2
    · simp [updatedTodo]
    · intro hpp hdp
      subst hpp hdp
      simp [updatedTodo]

theorem claim_C4_witness :
    (update_todo ⟨[⟨1, "a", true, 1, none⟩], 2⟩ 7 (some "b") none none none false false 0
        = .error (.notFound 7) ↔ get_todo_by_id ⟨[⟨1, "a", true, 1, none⟩], 2⟩ 7 = none) ∧
    (∀ todo0, get_todo_by_id ⟨[⟨1, "a", true, 1, none⟩], 2⟩ 7 = some todo0 →
      ∃ t' db',
        update_todo ⟨[⟨1, "a", true, 1, none⟩], 2⟩ 7 (some "b") none none none false false 0
          = .ok (t', db') ∧
        t'.id = 7 ∧
        t'.title = (some "b").getD todo0.title ∧
        t'.completed = (none : Option Bool).getD todo0.completed ∧
        t'.due_date = (if false then none else todo0.due_date) ∧
        (false = false → false = false → t'.priority = todo0.priority) ∧
        db'.nextId = 2 ∧
        db'.todos = [⟨1, "a", true, 1, none⟩].map (fun u => if u.id == 7 then t' else u)) :=
  claim_C4 ⟨[⟨1, "a", true, 1, none⟩], 2⟩ 7 (some "b") none none none false false 0

/-- C9: an update that explicitly carries `priority: null` together
with an explicit `due_date` updates the due date but leaves the stored
priority unchanged — the null is not applied and no recomputation from
the new due date happens. -/
theorem claim_C9 (db : DB) (todo_id : Nat) (todo0 : Todo) (r : TodoUpdate)
    (today : Int) (d : Option Int)
    (hp : r.priority = some none) (hd : r.due_date = some d)
    (h : get_todo_by_id db todo_id = some todo0) :
    ∃ t' db', update_todo_endpoint db todo_id r today = .ok (t', db') ∧
      t'.priority = todo0.priority ∧ t'.due_date = d := by
  have hv : todoUpdateValid r = true := by simp [todoUpdateValid, hp]
  unfold update_todo_endpoint
  rw [if_pos hv, hp, hd]
  rw [update_todo_spec r.title.join r.completed.join (Option.join (some none))
    (Option.join (some d)) (Option.isSome (some none)) (Option.isSome (some d)) today h]
  exact ⟨_, _, rfl, by simp [updatedTodo], by simp [updatedTodo]⟩

theorem claim_C9_witness :
    (⟨none, none, some none, some (some 4)⟩ : TodoUpdate).priority = some none ∧
    (⟨none, none, some none, some (some 4)⟩ : TodoUpdate).due_date = some (some 4) ∧
    get_todo_by_id ⟨[⟨1, "a", false, 3, none⟩], 2⟩ 1 = some ⟨1, "a", false, 3, none⟩ ∧
    (∃ t' db',
      update_todo_endpoint ⟨[⟨1, "a", false, 3, none⟩], 2⟩ 1
          ⟨none, none, some none, some (some 4)⟩ 0 = .ok (t', db') ∧
      t'.priority = 3 ∧ t'.due_date = some 4) :=
  ⟨rfl, rfl, rfl,
   claim_C9 ⟨[⟨1, "a", false, 3, none⟩], 2⟩ 1 ⟨1, "a", false, 3, none⟩
     ⟨none, none, some none, some (some 4)⟩ 0 (some 4) rfl rfl rfl⟩

/-- C10: supplying `title` or `completed` explicitly as null is treated
exactly like omitting the field — the response is identical to the one
for the request without the field, and the stored title/completed value
is unchanged, regardless of the other fields of the call. -/
theorem claim_C10 (db : DB) (todo_id : Nat) (r : TodoUpdate) (today : Int) :
    (r.title = some none →
      update_todo_endpoint db todo_id r today
        = update_todo_endpoint db todo_id { r with title := none } today) ∧
    (r.completed = some none →
      update_todo_endpoint db todo_id r today
        = update_todo_endpoint db todo_id { r with completed := none } today) ∧
    (∀ todo0 t' db', get_todo_by_id db todo_id = some todo0 →
      update_todo_endpoint db todo_id r today = .ok (t', db') →
      (r.title = some none → t'.title = todo0.title) ∧
      (r.completed = some none → t'.completed = todo0.completed)) := by
  refine ⟨?_, ?_, ?_⟩
  · intro ht
    simp [update_todo_endpoint, todoUpdateValid, ht]
  · intro hc
    simp [update_todo_endpoint, todoUpdateValid, hc]
  · intro todo0 t' db' h hok
    unfold update_todo_endpoint at hok
    by_cases hv : todoUpdateValid r = true
    · rw [if_pos hv] at hok
      rw [update_todo_spec r.title.join r.completed.join r.priority.join
        r.due_date.join r.priority.isSome r.due_date.isSome today h] at hok
      obtain ⟨h1, _⟩ := Prod.mk.injEq .. ▸ Except.ok.inj hok
      constructor
      · intro ht
        rw [← h1]
        simp [updatedTodo, ht]
      · intro hc
        rw [← h1]
        simp [updatedTodo, hc]
    · rw [if_neg hv] at hok
      exact absurd hok (by simp)

theorem claim_C10_witness :
    ((⟨some none, some none, none, none⟩ : TodoUpdate).title = some none →
      update_todo_endpoint ⟨[⟨1, "a", true, 2, none⟩], 2⟩ 1
          ⟨some none, some none, none, none⟩ 0
        = update_todo_endpoint ⟨[⟨1, "a", true, 2, none⟩], 2⟩ 1
            ⟨none, some none, none, none⟩ 0) ∧
    ((⟨some none, some none, none, none⟩ : TodoUpdate).completed = some none →
      update_todo_endpoint ⟨[⟨1, "a", true, 2, none⟩], 2⟩ 1
          ⟨some none, some none, none, none⟩ 0
        = update_todo_endpoint ⟨[⟨1, "a", true, 2, none⟩], 2⟩ 1
            ⟨some none, none, none, none⟩ 0) ∧
    (∀ todo0 t' db',
      get_todo_by_id ⟨[⟨1, "a", true, 2, none⟩], 2⟩ 1 = some todo0 →
      update_todo_endpoint ⟨[⟨1, "a", true, 2, none⟩], 2⟩ 1
          ⟨some none, some none, none, none⟩ 0 = .ok (t', db') →
      ((⟨some none, some none, none, none⟩ : TodoUpdate).title = some none →
        t'.title = todo0.title) ∧
      ((⟨some none, some none, none, none⟩ : TodoUpdate).completed = some none →
        t'.completed = todo0.completed)) :=
  claim_C10 ⟨[⟨1, "a", true, 2, none⟩], 2⟩ 1 ⟨some none, some none, none, none⟩ 0

theorem pairwise_and {α : Type} {R S : α → α → Prop} :
    ∀ {l : List α}, l.Pairwise R → l.Pairwise S → l.Pairwise (fun a b => R a b ∧ S a b)
  | [], _, _ => List.Pairwise.nil
  | _ :: _, .cons hR hRl, .cons hS hSl =>
    .cons (fun x hx => ⟨hR x hx, hS x hx⟩) (pairwise_and hRl hSl)

/-- C5: for every store state and every combination of the optional
filters, `list` returns exactly the records matching all given filters
(AND-combined), ordered descending by priority with descending id as
the tie-break; distinct ids make that order strict, hence the result
deterministic. -/
theorem claim_C5 (db : DB) (cf : Option Bool) (pf : Option Nat) :
    (get_all_todos db cf pf).Perm
      (db.todos.filter (fun t => matchesFilters t cf pf)) ∧
    (∀ t, t ∈ get_all_todos db cf pf ↔
      t ∈ db.todos ∧ matchesFilters t cf pf = true) ∧
    (get_all_todos db cf pf).Sorted todoGE ∧
    ((db.todos.map Todo.id).Nodup → (get_all_todos db cf pf).Sorted todoGT) := by
  refine ⟨List.perm_insertionSort todoGE _, ?_, List.sorted_insertionSort todoGE _, ?_⟩
  · intro t
    simp [get_all_todos, List.mem_filter]
  · intro hnd
    have hids : db.todos.Pairwise (fun a b => a.id ≠ b.id) := by
      rw [List.Nodup, List.pairwise_map] at hnd
      exact hnd
    have hfil : (db.todos.filter (fun t => matchesFilters t cf pf)).Pairwise
        (fun a b => a.id ≠ b.id) :=
      hids.sublist (List.filter_sublist _)
    have hres : (get_all_todos db cf pf).Pairwise (fun a b => a.id ≠ b.id) :=
      (List.Perm.pairwise_iff (fun h => h.symm)
        (List.perm_insertionSort todoGE _)).mpr hfil
    have hsorted : (get_all_todos db cf pf).Sorted todoGE :=
      List.sorted_insertionSort todoGE _
    refine (pairwise_and hsorted hres).imp ?_
    rintro a b ⟨hge | ⟨hpeq, hle⟩, hne⟩
    · exact Or.inl hge
    · exact Or.inr ⟨hpeq, Nat.lt_of_le_of_ne hle (fun e => hne e.symm)⟩

theorem claim_C5_witness :
    (([⟨1, "a", false, 2, none⟩, ⟨2, "b", false, 3, none⟩,
       ⟨3, "c", false, 2, none⟩] : List Todo).map Todo.id).Nodup ∧
    (get_all_todos ⟨[⟨1, "a", false, 2, none⟩, ⟨2, "b", false, 3, none⟩,
       ⟨3, "c", false, 2, none⟩], 4⟩ none none).Sorted todoGT :=
  ⟨by decide,
   (claim_C5 ⟨[⟨1, "a", false, 2, none⟩, ⟨2, "b", false, 3, none⟩,
      ⟨3, "c", false, 2, none⟩], 4⟩ none none).2.2.2 (by decide)⟩

/-- The spec §8 listing example: records (id=1,pri=2), (id=2,pri=3),
(id=3,pri=2) are listed in the order [2, 3, 1]. -/
theorem get_all_todos_example :
    get_all_todos ⟨[⟨1, "a", false, 2, none⟩, ⟨2, "b", false, 3, none⟩,
        ⟨3, "c", false, 2, none⟩], 4⟩ none none
      = [⟨2, "b", false, 3, none⟩, ⟨3, "c", false, 2, none⟩, ⟨1, "a", false, 2, none⟩] := by
  decide

theorem create_endpoint_state {db : DB} {today : Int} {r : TodoCreate} {x : Todo} {db2 : DB}
    (h : create_todo_endpoint db today r = .ok (x, db2)) :
    todoCreateValid r = true ∧
    x.id = db.nextId ∧ x.completed = false ∧ x.title = r.title ∧ x.due_date = r.due_date ∧
    x.priority = r.priority.getD (calculate_priority_from_due_date r.due_date today) ∧
    db2.todos = db.todos ++ [x] ∧ db2.nextId = db.nextId + 1 := by
  unfold create_todo_endpoint at h
  by_cases hv : todoCreateValid r = true
  · rw [if_pos hv] at h
    simp only [create_todo, Except.ok.injEq, Prod.mk.injEq] at h
    obtain ⟨h1, h2⟩ := h
    subst h1
    subst h2
    refine ⟨hv, rfl, rfl, rfl, rfl, ?_, rfl, rfl⟩
    cases r.priority <;> rfl
  · rw [if_neg hv] at h
    exact absurd h (by simp)

theorem update_endpoint_state {db : DB} {tid : Nat} {r : TodoUpdate} {today : Int}
    {x : Todo} {db2 : DB}
    (h : update_todo_endpoint db tid r today = .ok (x, db2)) :
    todoUpdateValid r = true ∧
    ∃ todo0, get_todo_by_id db tid = some todo0 ∧
      x = updatedTodo todo0 r.title.join r.completed.join r.priority.join r.due_date.join
            r.priority.isSome r.due_date.isSome today ∧
      db2.todos = db.todos.map (fun u => if u.id == tid then x else u) ∧
      db2.nextId = db.nextId := by
  unfold update_todo_endpoint at h
  by_cases hv : todoUpdateValid r = true
  · rw [if_pos hv] at h
    rcases hg : get_todo_by_id db tid with _ | todo0
    · simp [update_todo, hg] at h
    · rw [update_todo_spec r.title.join r.completed.join r.priority.join r.due_date.join
        r.priority.isSome r.due_date.isSome today hg] at h
      simp only [Except.ok.injEq, Prod.mk.injEq] at h
      obtain ⟨h1, h2⟩ := h
      subst h1
      subst h2
      exact ⟨hv, todo0, rfl, rfl, rfl, rfl⟩
  · rw [if_neg hv] at h
    exact absurd h (by simp)

theorem delete_state {db : DB} {tid : Nat} {b : Bool} {db2 : DB}
    (h : delete_todo db tid = .ok (b, db2)) :
    b = true ∧ db2.todos = db.todos.filter (fun t => !(t.id == tid)) ∧
    db2.nextId = db.nextId ∧ ∃ t0, get_todo_by_id db tid = some t0 := by
  rcases hg : get_todo_by_id db tid with _ | t0
  · simp [delete_todo, hg] at h
  · simp only [delete_todo, hg, Except.ok.injEq, Prod.mk.injEq] at h
    obtain ⟨h1, h2⟩ := h
    subst h1
    subst h2
    exact ⟨rfl, rfl, rfl, t0, rfl⟩

theorem exec_dead {db : DB} {tid : Nat} (op : Op)
    (hlt : tid < db.nextId) (hdead : ∀ t ∈ db.todos, t.id ≠ tid) :
    tid < (exec db op).nextId ∧ ∀ t ∈ (exec db op).todos, t.id ≠ tid := by
  cases op with
  | createOp today r =>
    cases hE : create_todo_endpoint db today r with
    | error e => simp only [exec, hE]; exact ⟨hlt, hdead⟩
    | ok val =>
      obtain ⟨x, db2⟩ := val
      obtain ⟨_, hid, _, _, _, _, htodos, hnext⟩ := create_endpoint_state hE
      simp only [exec, hE]
      refine ⟨by omega, ?_⟩
      intro t ht
      rw [htodos] at ht
      rcases List.mem_append.mp ht with hm | hm
      · exact hdead t hm
      · have hx : t = x := by simpa using hm
        subst hx
        omega
  | updateOp tid2 today r =>
    cases hE : update_todo_endpoint db tid2 r today with
    | error e => simp only [exec, hE]; exact ⟨hlt, hdead⟩
    | ok val =>
      obtain ⟨x, db2⟩ := val
      obtain ⟨_, todo0, hg, hx, htodos, hnext⟩ := update_endpoint_state hE
      simp only [exec, hE]
      refine ⟨by omega, ?_⟩
      intro t ht
      rw [htodos] at ht
      obtain ⟨u, hu, hut⟩ := List.mem_map.mp ht
      split at hut
      · subst hut
        rw [hx]
        have h0 := (get_todo_by_id_mem hg).1
        simpa [updatedTodo] using hdead todo0 h0
      · subst hut
        exact hdead u hu
  | deleteOp tid2 =>
    cases hE : delete_todo_endpoint db tid2 with
    | error e => simp only [exec, hE]; exact ⟨hlt, hdead⟩
    | ok val =>
      obtain ⟨b, db2⟩ := val
      unfold delete_todo_endpoint at hE
      obtain ⟨_, htodos, hnext, _⟩ := delete_state hE
      simp only [exec, delete_todo_endpoint, hE]
      refine ⟨by omega, ?_⟩
      intro t ht
      rw [htodos] at ht
      exact hdead t (List.mem_filter.mp ht).1

theorem foldl_exec_dead (ops : List Op) {db : DB} {tid : Nat}
    (hlt : tid < db.nextId) (hdead : ∀ t ∈ db.todos, t.id ≠ tid) :
    ∀ t ∈ (List.foldl exec db ops).todos, t.id ≠ tid := by
  induction ops generalizing db with
  | nil => exact hdead
  | cons op ops ih =>
    obtain ⟨h1, h2⟩ := exec_dead op hlt hdead
    exact ih h1 h2

theorem exec_priorityInv {db : DB} (h : PriorityInv db) (op : Op) :
    PriorityInv (exec db op) := by
  cases op with
  | createOp today r =>
    cases hE : create_todo_endpoint db today r with
    | error e => simpa only [exec, hE] using h
    | ok val =>
      obtain ⟨x, db2⟩ := val
      obtain ⟨hv, _, _, _, _, hpri, htodos, _⟩ := create_endpoint_state hE
      intro t ht
      simp only [exec, hE] at ht
      rw [htodos] at ht
      rcases List.mem_append.mp ht with hm | hm
      · exact h t hm
      · have hx : t = x := by simpa using hm
        subst hx
        rcases hp : r.priority with _ | p
        · simp only [hp, Option.getD_none] at hpri
          have := calculate_priority_range r.due_date today
          omega
        · simp only [hp, Option.getD_some] at hpri
          simp only [todoCreateValid, hp, Bool.and_eq_true, decide_eq_true_eq] at hv
          omega
  | updateOp tid2 today r =>
    cases hE : update_todo_endpoint db tid2 r today with
    | error e => simpa only [exec, hE] using h
    | ok val =>
      obtain ⟨x, db2⟩ := val
      obtain ⟨hv, todo0, hg, hx, htodos, _⟩ := update_endpoint_state hE
      intro t ht
      simp only [exec, hE] at ht
      rw [htodos] at ht
      obtain ⟨u, hu, hut⟩ := List.mem_map.mp ht
      split at hut
      · subst hut
        rw [hx]
        have h0 := h todo0 (get_todo_by_id_mem hg).1
        rcases hp : r.priority with _ | pr
        · simp only [updatedTodo, hp, Option.isSome_none, Bool.false_eq_true, if_false]
          split_ifs
          · exact calculate_priority_range r.due_date.join today
          · exact h0
        · rcases pr with _ | p
          · simpa [updatedTodo, hp] using h0
          · simp only [todoUpdateValid, hp, Bool.and_eq_true, decide_eq_true_eq] at hv
            simp only [updatedTodo, hp]
            simpa using hv
      · subst hut
        exact h u hu
  | deleteOp tid2 =>
    cases hE : delete_todo_endpoint db tid2 with
    | error e => simpa only [exec, hE] using h
    | ok val =>
      obtain ⟨b, db2⟩ := val
      unfold delete_todo_endpoint at hE
      obtain ⟨_, htodos, _, _⟩ := delete_state hE
      intro t ht
      simp only [exec, delete_todo_endpoint, hE] at ht
      rw [htodos] at ht
      exact h t (List.mem_filter.mp ht).1

theorem foldl_priorityInv (ops : List Op) {db : DB} (h : PriorityInv db) :
    PriorityInv (List.foldl exec db ops) := by
  induction ops generalizing db with
  | nil => exact h
  | cons op ops ih => exact ih (exec_priorityInv h op)

/-- C6: `delete` fails with `NotFound` exactly when no record has the
given id, leaving the store unchanged; on an existing record it removes
it permanently and returns success, and after any further sequence of
requests a `get` on that id still signals absence (ids are never
reassigned). -/
theorem claim_C6 (db : DB) (tid : Nat) (hwf : WF db) :
    (delete_todo db tid = .error (.notFound tid) ↔ get_todo_by_id db tid = none) ∧
    (get_todo_by_id db tid = none → exec db (Op.deleteOp tid) = db) ∧
    (∀ b db', delete_todo db tid = .ok (b, db') →
      b = true ∧ get_todo_by_id db' tid = none ∧
      ∀ ops : List Op, get_todo_by_id (List.foldl exec db' ops) tid = none) := by
  refine ⟨?_, ?_, ?_⟩
  · rcases hg : get_todo_by_id db tid with _ | t0
    · simp [delete_todo, hg]
    · simp [delete_todo, hg]
  · intro hg
    simp [exec, delete_todo_endpoint, delete_todo, hg]
  · intro b db' hok
    obtain ⟨hb, htodos, hnext, t0, hg⟩ := delete_state hok
    have hdead : ∀ t ∈ db'.todos, t.id ≠ tid := by
      intro t ht
      rw [htodos] at ht
      simpa using (List.mem_filter.mp ht).2
    have hlt : tid < db'.nextId := by
      obtain ⟨hmem, hid⟩ := get_todo_by_id_mem hg
      have := hwf t0 hmem
      omega
    refine ⟨hb, get_todo_by_id_eq_none.mpr hdead, fun ops => ?_⟩
    exact get_todo_by_id_eq_none.mpr (foldl_exec_dead ops hlt hdead)

theorem claim_C6_witness :
    WF ⟨[⟨1, "a", false, 2, none⟩], 2⟩ ∧
    ((delete_todo ⟨[⟨1, "a", false, 2, none⟩], 2⟩ 1 = .error (.notFound 1) ↔
        get_todo_by_id ⟨[⟨1, "a", false, 2, none⟩], 2⟩ 1 = none) ∧
      (get_todo_by_id ⟨[⟨1, "a", false, 2, none⟩], 2⟩ 1 = none →
        exec ⟨[⟨1, "a", false, 2, none⟩], 2⟩ (Op.deleteOp 1)
          = ⟨[⟨1, "a", false, 2, none⟩], 2⟩) ∧
      (∀ b db', delete_todo ⟨[⟨1, "a", false, 2, none⟩], 2⟩ 1 = .ok (b, db') →
        b = true ∧ get_todo_by_id db' 1 = none ∧
        ∀ ops : List Op, get_todo_by_id (List.foldl exec db' ops) 1 = none)) :=
  ⟨by decide, claim_C6 ⟨[⟨1, "a", false, 2, none⟩], 2⟩ 1 (by decide)⟩

/-- C7: every record reachable through the create/update/delete
boundary (which range-checks explicit priorities to 1..3) has priority
in {1,2,3}; the priority field is integer-valued and non-null by the
data model; `create` with no explicit priority stores the derived
priority and initialises `completed` to false. -/
theorem claim_C7 :
    (∀ ops : List Op, ∀ t ∈ (List.foldl exec emptyDB ops).todos,
      t.priority = 1 ∨ t.priority = 2 ∨ t.priority = 3) ∧
    (∀ (db : DB) (today : Int) (title : String) (due_date : Option Int),
      (create_todo db today title none due_date).1.priority
        = calculate_priority_from_due_date due_date today ∧
      (create_todo db today title none due_date).1.completed = false) := by
  constructor
  · intro ops t ht
    have h0 : PriorityInv emptyDB := by
      intro t ht
      simp [emptyDB] at ht
    have := foldl_priorityInv ops h0 t ht
    omega
  · intro db today title due_date
    exact ⟨rfl, rfl⟩

theorem claim_C7_witness :
    (⟨1, "a", false, 2, none⟩ : Todo)
        ∈ (List.foldl exec emptyDB [Op.createOp 0 ⟨"a", none, none⟩]).todos ∧
    ((⟨1, "a", false, 2, none⟩ : Todo).priority = 1 ∨
      (⟨1, "a", false, 2, none⟩ : Todo).priority = 2 ∨
      (⟨1, "a", false, 2, none⟩ : Todo).priority = 3) :=
  ⟨by decide,
   claim_C7.1 [Op.createOp 0 ⟨"a", none, none⟩] ⟨1, "a", false, 2, none⟩ (by decide)⟩

set_option maxRecDepth 10000 in
/-- C8 describes the intended validation, but the code performs none on
the title: the request schema constrains `title` only to be a string
(`title: str`, no bounds), the `max_length=200` declared on the model
column is not enforced at runtime, and no `InvalidInput` is raised — so
create accepts and stores both an empty title and a 201-character
title, returning the created record. -/
theorem claim_C8 :
    create_todo_endpoint emptyDB 0 ⟨"", none, none⟩
      = .ok (⟨1, "", false, 2, none⟩, ⟨[⟨1, "", false, 2, none⟩], 2⟩) ∧
    (String.mk (List.replicate 201 'a')).length = 201 ∧
    create_todo_endpoint emptyDB 0 ⟨String.mk (List.replicate 201 'a'), none, none⟩
      = .ok (⟨1, String.mk (List.replicate 201 'a'), false, 2, none⟩,
             ⟨[⟨1, String.mk (List.replicate 201 'a'), false, 2, none⟩], 2⟩) := by
  refine ⟨rfl, ?_, rfl⟩
  decide

end TodoApp
